import Mathlib

/-
Verification development for the meta-onoff-scheduler repository.

The repository contains two parallel server implementations of the same
scheduler:
  - src/unnamed/part_000: express + better-sqlite3 + node-cron server
    (functions scheduleRule, unscheduleRule, getTargets, fetchByNameFilter,
    setStatus, enforce, periodicEnforce);
  - src/unnamed/part_001: express + JSON-file + node-cron server
    (functions cronForTime, setStatusOnObjects, findTargetsByName,
    inActiveWindow, enforceRule, unschedule, scheduleRule).

The definitions below are shallow embeddings of those functions, in one
Lean namespace per source file (`P0` for part_000, `P1` for part_001).
Wall-clock localization (JS Intl.DateTimeFormat with a timeZone option,
resp. bare dayjs which renders in the host zone) is modelled by an
abstract `Instant` carrying, for each IANA zone name, the local weekday
and hour/minute; the host zone is passed explicitly where the source
implicitly uses it.
-/

/-- Local wall-clock data of one instant in one timezone: the short
weekday name as produced by Intl en-US (`"Mon"`, ...), the numeric
weekday as produced by dayjs `.day()` (0 = Sunday), and hour/minute. -/
structure LocalClock where
  dowShort : String
  dayIdx : Nat
  hh : Nat
  mm : Nat
deriving DecidableEq

/-- An instant, viewed only through its local wall clock in each zone. -/
structure Instant where
  localAt : String → LocalClock

/-- Object status strings sent to the Graph API. -/
inductive AdStatus where
  | ACTIVE
  | PAUSED
deriving DecidableEq

/-- `l.split(c)` on character lists (structural recursion so that proofs
can evaluate it): accumulates the current chunk in reverse. -/
def splitCharAux (c : Char) : List Char → List Char → List (List Char)
  | [], acc => [acc.reverse]
  | x :: xs, acc =>
      if x = c then acc.reverse :: splitCharAux c xs []
      else splitCharAux c xs (x :: acc)

/-- JS `s.split(c)` for a one-character separator. -/
def splitChar (c : Char) (s : String) : List String :=
  (splitCharAux c s.data []).map String.mk

/-- JS `Number(s)` / `parseInt(s, 10)` restricted to the digit strings the
rules actually store (we read the decimal digits left to right; non-numeric
time strings are out of scope of the claims). -/
def jsNum (s : String) : Nat :=
  s.data.foldl (fun n c => n * 10 + (c.toNat - 48)) 0

/-- `t.split(':').map(Number)` destructured as `[hh, mm]`, the shared shape
of part_000 lines 50-51/128-129 and part_001 lines 52-54/141-144. -/
def parseHM (s : String) : Nat × Nat :=
  let ps := (splitChar ':' s).map jsNum
  (ps.getD 0 0, ps.getD 1 0)

/-- Minutes since midnight of a `"HH:MM"` string, `h * 60 + m`. -/
def timeMins (s : String) : Nat :=
  (parseHM s).1 * 60 + (parseHM s).2

/-- Minutes since midnight of a local clock reading. -/
def clockMinutes (c : LocalClock) : Nat :=
  c.hh * 60 + c.mm

/-- Is `needle` a prefix of `hay`? -/
def charListPrefix : List Char → List Char → Bool
  | [], _ => true
  | _ :: _, [] => false
  | x :: xs, y :: ys => x = y && charListPrefix xs ys

/-- Does `hay` contain `needle` as a contiguous sublist? -/
def charListContains (hay needle : List Char) : Bool :=
  charListPrefix needle hay ||
    match hay with
    | [] => false
    | _ :: t => charListContains t needle

/-- JS `hay.includes(needle)` for strings (empty needle always matches). -/
def strContains (hay needle : String) : Bool :=
  charListContains hay.data needle.data

/-- ASCII lower-casing of one character (what `toLowerCase` does on the
ASCII object names the claims are about). -/
def lowerChar (c : Char) : Char :=
  if 'A' ≤ c ∧ c ≤ 'Z' then Char.ofNat (c.toNat + 32) else c

/-- JS `s.toLowerCase()` on ASCII strings. -/
def strLower (s : String) : String :=
  ⟨s.data.map lowerChar⟩

/-- Case-insensitive containment, JS
`hay.toLowerCase().includes(needle.toLowerCase())`. -/
def lowerContains (hay needle : String) : Bool :=
  strContains (strLower hay) (strLower needle)

/-- One object of the Graph API inventory listing (`fields=id,name,...`). -/
structure InvObj where
  id : String
  name : Option String
deriving DecidableEq

/-- A Graph API error payload: `e.response?.data?.error?.code` plus the rest
of the payload (kept abstract as a string; only its identity matters). -/
structure ProviderErr where
  code : Option Int
  payload : String
deriving DecidableEq

/-- JS truthiness of an optional string (`null`/`''` are falsy). -/
def jsTruthyStr (o : Option String) : Bool :=
  match o with
  | none => false
  | some s => !(s == "")

namespace P0


/-- A row of the `rules` table of part_000 (lines 24-42); `target_ids` and
`days_of_week` are stored as JSON strings and modelled decoded. -/
structure Rule where
  id : Nat
  account_id : String
  level : String
  target_ids : List String
  name_filter : Option String
  stop_time : String
  start_time : String
  timezone : Option String
  enforce_window_minutes : Nat
  days_of_week : List String
  enabled : Bool
deriving DecidableEq

/-- The current-minute value `cur = hh*60 + mm` of part_000 periodicEnforce
lines 123-127: the instant is formatted in `rule.timezone || DEFAULT_TZ`. -/
def curMinutes (dtz : String) (rule : Rule) (now : Instant) : Nat :=
  clockMinutes (now.localAt (rule.timezone.getD dtz))

/-- The desired-state computation of part_000 periodicEnforce lines 128-138. -/
def periodicDesired (dtz : String) (rule : Rule) (now : Instant) : AdStatus :=
  let cur := curMinutes dtz rule now
  let stopMin := timeMins rule.stop_time
  let startMin := timeMins rule.start_time
  if stopMin < startMin then
    if stopMin ≤ cur ∧ cur < startMin then AdStatus.PAUSED else AdStatus.ACTIVE
  else
    if stopMin ≤ cur ∨ cur < startMin then AdStatus.PAUSED else AdStatus.ACTIVE

end P0

namespace P1


/-- A rule object of part_001 (created at lines 213-224). -/
structure Rule where
  id : String
  account_id : String
  level : String
  ids : List String
  name_contains : String
  stop : String
  start : String
  tz : String
  days : List Nat
  enforce_every : Nat
deriving DecidableEq

/-- part_001 `inActiveWindow(rule, now)` lines 136-153.  The caller's
`dayjs(now)` renders the instant in the process-local zone, so the embedding
takes the already-localized clock; `enforceRule` passes `now.localAt hostTz`. -/
def inActiveWindow (rule : Rule) (n : LocalClock) : Bool :=
  if rule.days.isEmpty then true
  else if rule.days.contains n.dayIdx = false then false
  else
    let mins := clockMinutes n
    let start := timeMins rule.start
    let stop := timeMins rule.stop
    if start = stop then false
    else if start < stop then decide (start ≤ mins ∧ mins < stop)
    else !(decide (stop ≤ mins ∧ mins < start))

/-- The status part_001 `enforceRule` (lines 155-158) derives from
`inActiveWindow` on the host-localized clock. -/
def desiredStatus (rule : Rule) (n : LocalClock) : AdStatus :=
  if inActiveWindow rule n then AdStatus.ACTIVE else AdStatus.PAUSED

end P1

/-- Rule used by the C1 counterexample: part_001 rule with an empty days
list and equal stop/start times. -/
def c1CexRule : P1.Rule :=
  { id := "r1", account_id := "act1", level := "campaign", ids := ["x"],
    name_contains := "", stop := "10:00", start := "10:00", tz := "UTC",
    days := [], enforce_every := 5 }

/-- Clock used by the C1 counterexample and witness. -/
def c1CexClock : LocalClock :=
  ⟨"Mon", 1, 3, 0⟩

/-- part_000 rule used by the C1 witness. -/
def c1WitRule0 : P0.Rule :=
  { id := 1, account_id := "a1", level := "campaign", target_ids := [],
    name_filter := none, stop_time := "22:00", start_time := "06:00",
    timezone := some "UTC", enforce_window_minutes := 30,
    days_of_week := ["Mon"], enabled := true }

/-- part_001 rule used by the C1 witness. -/
def c1WitRule1 : P1.Rule :=
  { id := "r2", account_id := "act1", level := "campaign", ids := ["x"],
    name_contains := "", stop := "22:00", start := "06:00", tz := "UTC",
    days := [1], enforce_every := 5 }

/-- Instant used by the C1 witness (same wall clock in every zone). -/
def c1WitInstant : Instant :=
  ⟨fun _ => c1CexClock⟩

/-- The Graph API inventory node for a level, shared shape of part_000 line
75 and part_001 line 110: `level === 'campaign' ? 'campaigns' : 'adsets'`. -/
def nodeOfLevel (level : String) : String :=
  if level = "campaign" then "campaigns" else "adsets"

namespace P0


/-- The external inventory seen by part_000 `fetchByNameFilter`: the single
page (`limit: 200`, no pagination walk) the listing endpoint returns for an
account id and node. -/
def InvWorld : Type :=
  (String → String → List InvObj)

/-- part_000 `fetchByNameFilter` lines 73-80: one GET on the listing
endpoint, then `data.filter(x => (x.name || '').includes(rule.name_filter))
.map(x => x.id)` — a case-sensitive name match on the first page only. -/
def fetchByNameFilter (rule : Rule) (world : InvWorld) : List String :=
  let page := world rule.account_id (nodeOfLevel rule.level)
  (page.filter fun x =>
    strContains (x.name.getD "") (rule.name_filter.getD "")).map InvObj.id

/-- part_000 `getTargets` lines 81-86, returning the resolved ids together
with the number of listing requests made (0 or 1). -/
def getTargets (rule : Rule) (world : InvWorld) : List String × Nat :=
  if rule.target_ids.isEmpty = false then (rule.target_ids, 0)
  else if jsTruthyStr rule.name_filter = false then ([], 0)
  else (fetchByNameFilter rule world, 1)

/-- Observable effect of one part_000 `enforce(rule, desired)` run (lines
104-120): whether the weekday gate passed (line 106 returns early
otherwise), how many listing requests were made, which status mutations
were attempted (line 112), and whether `last_run` was updated (line 119;
skipped by the early returns of lines 106 and 109). -/
structure EnforceOutcome where
  dayGatePassed : Bool
  networkCalls : Nat
  muts : List (String × AdStatus)
  lastRunUpdated : Bool
deriving DecidableEq

/-- part_000 `enforce` lines 104-120.  The weekday is rendered by Intl with
`timeZone: rule.timezone` — with no configured-default fallback, so an
absent zone falls back to the process-local zone, which is why `hostTz` is
a parameter here (the part_000 rules table declares the column NOT NULL, so
the fallback is unreachable from the CRUD layer). -/
def enforceOutcome (rule : Rule) (desired : AdStatus) (now : Instant)
    (hostTz : String) (world : InvWorld) : EnforceOutcome :=
  let dow := (now.localAt (rule.timezone.getD hostTz)).dowShort
  if rule.days_of_week.contains dow = false then ⟨false, 0, [], false⟩
  else
    let tr := getTargets rule world
    if tr.1.isEmpty then ⟨true, tr.2, [], false⟩
    else ⟨true, tr.2, tr.1.map (fun i => (i, desired)), true⟩

end P0

namespace P1


/-- The external inventory seen by part_001 `findTargetsByName`: the
successive pages (`limit: 500`) the listing endpoint serves for an account
id and node; `paging.next` is present exactly while further pages remain. -/
def InvWorld : Type :=
  (String → String → List (List InvObj))

/-- The loop body of part_001 `findTargetsByName` lines 116-132:
`for (let i = 0; i < 10 && url; i++)`, keeping objects whose name passes
`!nameContains || name.toLowerCase().includes(nameContains.toLowerCase())`,
and counting the page fetches. -/
def findLoop (nameContains : String) : Nat → List (List InvObj) → List String × Nat
  | _, [] => ([], 0)
  | 0, _ => ([], 0)
  | fuel + 1, page :: rest =>
      let here := (page.filter fun it =>
        nameContains == "" || lowerContains (it.name.getD "") nameContains).map InvObj.id
      let r := findLoop nameContains fuel rest
      (here ++ r.1, r.2 + 1)

/-- part_001 `findTargetsByName(accountId, level, nameContains)` lines
109-134, returning the collected ids and the number of pages fetched. -/
def findTargetsByName (world : InvWorld) (accountId level nameContains : String) :
    List String × Nat :=
  findLoop nameContains 10 (world accountId (nodeOfLevel level))

/-- The desired status of part_001 `enforceRule` as a function of the
instant and the process-local zone: `dayjs()` renders in the host zone. -/
def enforceDesired (rule : Rule) (now : Instant) (hostTz : String) : AdStatus :=
  desiredStatus rule (now.localAt hostTz)

/-- Observable effect of one part_001 `enforceRule(rule)` run. -/
structure EnforceOutcome where
  desired : AdStatus
  targets : List String
  pagesFetched : Nat
  muts : List (String × AdStatus)
deriving DecidableEq

/-- part_001 `enforceRule` lines 155-161: compute the desired status from
`inActiveWindow` on the host-localized clock, resolve ids (explicit ids if
non-empty, else `findTargetsByName` with `rule.name_contains || ''`), and
apply the status to every resolved id. -/
def enforceRule (rule : Rule) (now : Instant) (hostTz : String)
    (world : InvWorld) : EnforceOutcome :=
  let status := enforceDesired rule now hostTz
  let r := if rule.ids.isEmpty = false then (rule.ids, 0)
    else findTargetsByName world rule.account_id rule.level rule.name_contains
  ⟨status, r.1, r.2, r.1.map (fun i => (i, status))⟩

end P1

/-- part_000 rule used by the C2 witness. -/
def c2WitRule : P0.Rule :=
  { id := 2, account_id := "a1", level := "campaign", target_ids := ["t1"],
    name_filter := none, stop_time := "22:00", start_time := "06:00",
    timezone := some "UTC", enforce_window_minutes := 30,
    days_of_week := ["Mon"], enabled := true }

/-- Instant used by the C2 witness: a Tuesday in every zone. -/
def c2WitInstant : Instant :=
  ⟨fun _ => ⟨"Tue", 2, 12, 0⟩⟩

/-- part_001 rule used by the C2 counterexample: Monday-only rule. -/
def c2CexRule : P1.Rule :=
  { id := "r3", account_id := "act1", level := "campaign", ids := ["x"],
    name_contains := "", stop := "22:00", start := "06:00", tz := "UTC",
    days := [1], enforce_every := 5 }

/-- Instant used by the C2 counterexample: a Sunday midday in every zone. -/
def c2CexInstant : Instant :=
  ⟨fun _ => ⟨"Sun", 0, 12, 0⟩⟩

/-- part_001 rule used by the C3 bug exhibit: configured for Asia/Jerusalem
with a start edge at 13:00. -/
def c3Rule : P1.Rule :=
  { id := "r4", account_id := "act1", level := "campaign", ids := ["x"],
    name_contains := "", stop := "22:00", start := "13:00",
    tz := "Asia/Jerusalem", days := [1], enforce_every := 5 }

/-- Instant used by the C3 bug exhibit: Monday 12:00 UTC, which is Monday
14:00 in Asia/Jerusalem. -/
def c3Instant : Instant :=
  ⟨fun tz => if tz = "Asia/Jerusalem" then ⟨"Mon", 1, 14, 0⟩
    else ⟨"Mon", 1, 12, 0⟩⟩

/-- part_000 rule used by the C7 witness: no ids, no filter. -/
def c7WitRule : P0.Rule :=
  { id := 3, account_id := "a1", level := "adset", target_ids := [],
    name_filter := none, stop_time := "22:00", start_time := "06:00",
    timezone := some "UTC", enforce_window_minutes := 30,
    days_of_week := ["Mon"], enabled := true }

/-- part_001 rule used by the C7 counterexample: no ids, empty filter. -/
def c7CexRule : P1.Rule :=
  { id := "r5", account_id := "act1", level := "campaign", ids := [],
    name_contains := "", stop := "22:00", start := "06:00", tz := "UTC",
    days := [1], enforce_every := 5 }

/-- Inventory used by the C7 counterexample: one page with one campaign. -/
def c7CexWorld : P1.InvWorld :=
  fun _ _ => [[⟨"obj1", some "anything"⟩]]

/-- Instant used by the C7 counterexample: Monday 03:00 (inside the pause
window of c7CexRule) in every zone. -/
def c7CexInstant : Instant :=
  ⟨fun _ => ⟨"Mon", 1, 3, 0⟩⟩

namespace P0


/-- The fixed transient allow-list of part_000 `setStatus` line 97:
`[1,2,4,17,32,613,80004].includes(code)`. -/
def transientCodes : List Int :=
  [1, 2, 4, 17, 32, 613, 80004]

/-- Classification of one provider error by part_000 `setStatus` lines
96-97 (a missing code is not transient). -/
def isTransient (e : ProviderErr) : Bool :=
  match e.code with
  | some c => transientCodes.contains c
  | none => false

/-- Result of one `setStatus` call: JS return (success) or throw. -/
inductive ApplyOutcome where
  | success
  | failure (e : ProviderErr)
deriving DecidableEq

/-- Observable effect of part_000 `setStatus(id, desired, rule)`: final
outcome, number of POST calls made, and the sleep durations (ms) between
attempts. -/
structure ApplyResult where
  outcome : ApplyOutcome
  calls : Nat
  delays : List Nat
deriving DecidableEq

/-- The `for (let attempt = 1; attempt <= 3; attempt++)` loop of part_000
`setStatus` lines 91-101, driven by an oracle giving each attempt's POST
result (`none` = HTTP success, `some e` = the thrown error).  `fuel` is the
number of loop iterations left; the loop always exits by `return` or
`throw` before fuel runs out, so the fuel-0 arm is unreachable from
`setStatus`. -/
def setStatusLoop (resp : Nat → Option ProviderErr) :
    Nat → Nat → Nat → List Nat → ApplyResult
  | 0, _, calls, delays => ⟨ApplyOutcome.success, calls, delays⟩
  | fuel + 1, attempt, calls, delays =>
      match resp attempt with
      | none => ⟨ApplyOutcome.success, calls + 1, delays⟩
      | some e =>
          if attempt < 3 ∧ isTransient e = true then
            setStatusLoop resp fuel (attempt + 1) (calls + 1)
              (delays ++ [500 * attempt])
          else ⟨ApplyOutcome.failure e, calls + 1, delays⟩

/-- part_000 `setStatus` lines 88-102. -/
def setStatus (resp : Nat → Option ProviderErr) : ApplyResult :=
  setStatusLoop resp 3 1 0 []

end P0

/-- Attempt oracle for the C4 witness: the provider rate-limits the first
two attempts (code 17 is in the allow-list) and succeeds on the third. -/
def c4WitResp : Nat → Option ProviderErr :=
  fun n => if 3 ≤ n then none else some ⟨some 17, "rate limited"⟩

namespace P1


/-- One entry of the results array of part_001 `setStatusOnObjects`. -/
structure ApplyEntry where
  id : String
  ok : Bool
  err : Option ProviderErr
deriving DecidableEq

/-- part_001 `setStatusOnObjects(level, ids, status)` lines 85-107: one
POST per id, no retry loop — the response oracle is indexed by id and
attempt number, and the code only ever consults attempt 1.  Returns the
results array and the total number of POST calls made. -/
def setStatusOnObjects (ids : List String)
    (respond : String → Nat → Option ProviderErr) : List ApplyEntry × Nat :=
  match ids with
  | [] => ([], 0)
  | id :: rest =>
      let entry : ApplyEntry :=
        match respond id 1 with
        | none => ⟨id, true, none⟩
        | some er => ⟨id, false, some er⟩
      let r := setStatusOnObjects rest respond
      (entry :: r.1, r.2 + 1)

end P1


/-- Response oracle for the C4 counterexample: for every object the
provider returns the transient code 4 on attempts 1 and 2 and succeeds on
attempt 3 — the exact scenario of the claim. -/
def c4CexRespond : String → Nat → Option ProviderErr :=
  fun _ attempt => if 3 ≤ attempt then none else some ⟨some 4, "throttled"⟩

/-- Inventory used by the C8 witness: two pages for any account/node. -/
def c8WitWorld : P1.InvWorld :=
  fun _ _ => [[⟨"1", some "Alpha Campaign"⟩, ⟨"2", some "beta"⟩],
    [⟨"3", some "ALPHA two"⟩]]

/-- part_000 rule used by the C8 counterexample: lower-case name filter. -/
def c8CexRule : P0.Rule :=
  { id := 4, account_id := "a1", level := "campaign", target_ids := [],
    name_filter := some "summer", stop_time := "22:00",
    start_time := "06:00", timezone := some "UTC",
    enforce_window_minutes := 30, days_of_week := ["Mon"], enabled := true }

/-- Inventory used by the C8 counterexample: one object whose name contains
the filter only up to case. -/
def c8CexWorld : P0.InvWorld :=
  fun _ _ => [⟨"1", some "Summer Sale"⟩]

namespace P0


/-- The periodic-trigger divisor of part_000 `scheduleRule` line 56:
`Math.max(5, Number(rule.enforce_window_minutes) || 30)` (a stored 0 is
falsy and becomes the default 30). -/
def everyXMins (v : Nat) : Nat :=
  max 5 (if v = 0 then 30 else v)

end P0

namespace P1


/-- The periodic-trigger divisor of part_001 `scheduleRule` line 184:
`Math.max(1, Math.min(60, parseInt(rule.enforce_every || '5', 10)))`
(a stored 0 is falsy and becomes the default 5). -/
def clampEvery (v : Nat) : Nat :=
  max 1 (min 60 (if v = 0 then 5 else v))

end P1

namespace P0


/-- The trigger set part_000 `scheduleRule` (lines 45-60) installs for one
rule: stop-edge and start-edge cron jobs and the periodic enforce job, each
as (cron expression, timezone). -/
structure TriggerSet where
  stopSpec : String × String
  startSpec : String × String
  periodicSpec : String × String
deriving DecidableEq

/-- The daily cron expression `${m} ${h} * * *` of part_000 lines 53-54. -/
def cronExpr (t : String) : String :=
  toString (parseHM t).2 ++ " " ++ toString (parseHM t).1 ++ " * * *"

/-- The triggers implied by a rule's configuration (part_000 lines 49-58). -/
def mkTriggerSet (dtz : String) (r : Rule) : TriggerSet :=
  let tz := r.timezone.getD dtz
  ⟨(cronExpr r.stop_time, tz), (cronExpr r.start_time, tz),
    ("*/" ++ toString (everyXMins r.enforce_window_minutes) ++ " * * * *", tz)⟩

/-- The `jobs` Map of part_000 line 44, keyed by rule id.  An entry is live
exactly while its triggers are scheduled (cron tasks are stopped at the
same moment the entry is deleted, lines 64-65). -/
def JobsMap : Type :=
  Nat → Option TriggerSet

/-- part_000 `unscheduleRule` lines 61-66: look up the entry; if absent,
return; else stop every task of the set and delete the entry. -/
def unscheduleRule (jobs : JobsMap) (id : Nat) : JobsMap :=
  match jobs id with
  | none => jobs
  | some _ => fun k => if k = id then none else jobs k

/-- part_000 `scheduleRule` lines 45-60: always cancel the old set first,
return if the rule is disabled, else install the three triggers. -/
def scheduleRule (dtz : String) (jobs : JobsMap) (r : Rule) : JobsMap :=
  let j1 := unscheduleRule jobs r.id
  if r.enabled = false then j1
  else fun k => if k = r.id then some (mkTriggerSet dtz r) else j1 k

/-- The whole part_000 application state: the `rules` table, the `jobs`
map, and the AUTOINCREMENT counter. -/
structure AppState where
  rules : List Rule
  jobs : JobsMap
  nextId : Nat

/-- The CRUD mutations of part_000 that touch the trigger registry:
`POST /api/rules` (insert, lines 179-199), `PATCH /api/rules/:id` (update,
lines 201-224) and `DELETE /api/rules/:id` (lines 226-231).  A patch
carries the field update derived from the request body; the row id is
never changed by the UPDATE statement. -/
inductive Op where
  | insert (f : Rule)
  | patch (id : Nat) (upd : Rule → Rule)
  | del (id : Nat)

/-- One CRUD mutation of part_000: insert stores the row under a fresh id
and calls `scheduleRule(row)`; patch merges onto the existing row (404 when
absent) and calls `scheduleRule(updated)`; delete removes the row and calls
`unscheduleRule(id)`. -/
def step (dtz : String) (s : AppState) : Op → AppState
  | Op.insert f =>
      let row := { f with id := s.nextId }
      { rules := s.rules ++ [row],
        jobs := scheduleRule dtz s.jobs row,
        nextId := s.nextId + 1 }
  | Op.patch id upd =>
      match s.rules.find? (fun r => r.id == id) with
      | none => s
      | some row =>
          let merged := { upd row with id := id }
          { rules := s.rules.map (fun r => if r.id == id then merged else r),
            jobs := scheduleRule dtz s.jobs merged,
            nextId := s.nextId }
  | Op.del id =>
      { rules := s.rules.filter (fun r => !(r.id == id)),
        jobs := unscheduleRule s.jobs id,
        nextId := s.nextId }

/-- Fresh part_000 state: empty table, empty registry. -/
def initState : AppState :=
  ⟨[], fun _ => none, 0⟩

/-- Replay a sequence of CRUD mutations from the fresh state. -/
def run (dtz : String) (ops : List Op) : AppState :=
  ops.foldl (step dtz) initState

/-- The first rule with this id that is enabled, if any. -/
def enabledLookup (rules : List Rule) (id : Nat) : Option Rule :=
  rules.find? (fun r => r.id == id && r.enabled)

/-- The registry invariant: ids are bounded by the AUTOINCREMENT counter,
and the jobs map holds exactly the triggers implied by the newest
configuration of each enabled rule. -/
def RegInv (dtz : String) (s : AppState) : Prop :=
  (∀ r ∈ s.rules, r.id < s.nextId) ∧
  (∀ id, s.jobs id = (enabledLookup s.rules id).map (mkTriggerSet dtz))

end P0

namespace P1


/-- One cron job of part_001: expression and timezone. -/
structure CronJob where
  expr : String
  tz : String
deriving DecidableEq

/-- part_001 `cronForTime(t, tz)` lines 51-56. -/
def cronForTime (t tz : String) : CronJob :=
  ⟨toString (parseHM t).2 ++ " " ++ toString (parseHM t).1 ++ " * * *", tz⟩

/-- The `schedulers` Map of part_001 line 30, keyed by rule id. -/
def SchedulerMap : Type :=
  String → Option (List CronJob)

/-- part_001 `unschedule(id)` lines 163-169: look the set up; if present,
stop every job and delete the entry; otherwise do nothing. -/
def unschedule (m : SchedulerMap) (id : String) : SchedulerMap :=
  match m id with
  | none => m
  | some _ => fun k => if k = id then none else m k

/-- The three jobs part_001 `scheduleRule` installs (lines 171-188):
stop edge, start edge, and the clamped periodic enforce job, all in
`rule.tz || ACCOUNT_TIMEZONE_DEFAULT`. -/
def mkTriggerSet (adtz : String) (r : Rule) : List CronJob :=
  let tz := if r.tz == "" then adtz else r.tz
  [cronForTime r.stop tz, cronForTime r.start tz,
    ⟨"*/" ++ toString (clampEvery r.enforce_every) ++ " * * * *", tz⟩]

/-- part_001 `scheduleRule(rule)` lines 171-189: `unschedule(rule.id)`
first, then install the three jobs under the rule id. -/
def scheduleRule (adtz : String) (m : SchedulerMap) (r : Rule) : SchedulerMap :=
  let m1 := unschedule m r.id
  fun k => if k = r.id then some (mkTriggerSet adtz r) else m1 k

end P1

namespace P0


/-- The atomic segments of one part_000 `enforce` invocation between its
`await` suspension points (lines 104-120): the weekday gate, the target
resolution, the start and completion of each per-target `setStatus` POST,
and the `last_run` update. -/
inductive EnfStep where
  | dayGate
  | resolveTargets
  | applyStart (obj : String)
  | applyEnd (obj : String)
  | updateLastRun
deriving DecidableEq

/-- The program-order step sequence of one `enforce` invocation that
reaches all its targets. -/
def enforceSteps (targets : List String) : List EnfStep :=
  EnfStep.dayGate :: EnfStep.resolveTargets ::
    ((targets.map (fun t => [EnfStep.applyStart t, EnfStep.applyEnd t])).flatten
      ++ [EnfStep.updateLastRun])

end P0


/-- Interleavings of two step sequences: the event loop may resume either
invocation at each await point, preserving program order within each.
`enforce` holds no per-rule lock and checks no in-flight flag, so nothing
in part_000 (or part_001, whose `enforceRule` is likewise guard-free)
restricts which interleavings can occur. -/
inductive Interleaving : List (Nat × P0.EnfStep) → List (Nat × P0.EnfStep) →
    List (Nat × P0.EnfStep) → Prop where
  | nil : Interleaving [] [] []
  | left {x xs ys zs} : Interleaving xs ys zs →
      Interleaving (x :: xs) ys (x :: zs)
  | right {xs y ys zs} : Interleaving xs ys zs →
      Interleaving xs (y :: ys) (y :: zs)

/-- The steps of one invocation tagged with its invocation id. -/
def taggedSteps (tid : Nat) (targets : List String) :
    List (Nat × P0.EnfStep) :=
  (P0.enforceSteps targets).map (fun st => (tid, st))

/-- A trace contains two overlapping status applies to the same object:
some invocation starts applying to `o`, and before that apply completes, a
different invocation also starts applying to `o`. -/
def OverlappingApply (tr : List (Nat × P0.EnfStep)) : Prop :=
  ∃ t1 t2 o l1 l2 l3, t1 ≠ t2 ∧
    tr = l1 ++ (t1, P0.EnfStep.applyStart o) ::
      (l2 ++ (t2, P0.EnfStep.applyStart o) :: l3) ∧
    (t1, P0.EnfStep.applyEnd o) ∉ l2

namespace P0

theorem periodicDesired_spec (dtz : String) (rule : Rule) (now : Instant) :
    periodicDesired dtz rule now =
      (if timeMins rule.stop_time < timeMins rule.start_time then
        if timeMins rule.stop_time ≤ curMinutes dtz rule now ∧
            curMinutes dtz rule now < timeMins rule.start_time then
          AdStatus.PAUSED else AdStatus.ACTIVE
      else
        if timeMins rule.stop_time ≤ curMinutes dtz rule now ∨
            curMinutes dtz rule now < timeMins rule.start_time then
          AdStatus.PAUSED else AdStatus.ACTIVE) := rfl

end P0


/-- Claim C1, amended.  The three-case window formula (stop_m = start_m ⇒
Paused; stop_m < start_m ⇒ Paused iff stop_m ≤ m < start_m; stop_m > start_m
⇒ Paused iff m ≥ stop_m ∨ m < start_m) holds of part_000's periodic
evaluation unconditionally, and of part_001's evaluation whenever the rule's
days list is non-empty and contains the local weekday.  (part_001 with an
empty days list yields Active unconditionally, and with an out-of-set
weekday yields Paused unconditionally; see the counterexample.) -/
theorem c1_window_formula (dtz : String) (rule0 : P0.Rule) (now : Instant)
    (rule1 : P1.Rule) (clock : LocalClock)
    (h1 : rule1.days ≠ []) (h2 : rule1.days.contains clock.dayIdx = true) :
    ((timeMins rule0.stop_time = timeMins rule0.start_time →
        P0.periodicDesired dtz rule0 now = AdStatus.PAUSED)
      ∧ (timeMins rule0.stop_time < timeMins rule0.start_time →
        (P0.periodicDesired dtz rule0 now = AdStatus.PAUSED ↔
          (timeMins rule0.stop_time ≤ P0.curMinutes dtz rule0 now ∧
            P0.curMinutes dtz rule0 now < timeMins rule0.start_time)))
      ∧ (timeMins rule0.start_time < timeMins rule0.stop_time →
        (P0.periodicDesired dtz rule0 now = AdStatus.PAUSED ↔
          (timeMins rule0.stop_time ≤ P0.curMinutes dtz rule0 now ∨
            P0.curMinutes dtz rule0 now < timeMins rule0.start_time))))
    ∧ ((timeMins rule1.stop = timeMins rule1.start →
        P1.desiredStatus rule1 clock = AdStatus.PAUSED)
      ∧ (timeMins rule1.stop < timeMins rule1.start →
        (P1.desiredStatus rule1 clock = AdStatus.PAUSED ↔
          (timeMins rule1.stop ≤ clockMinutes clock ∧
            clockMinutes clock < timeMins rule1.start)))
      ∧ (timeMins rule1.start < timeMins rule1.stop →
        (P1.desiredStatus rule1 clock = AdStatus.PAUSED ↔
          (timeMins rule1.stop ≤ clockMinutes clock ∨
            clockMinutes clock < timeMins rule1.start)))) := by
  have hne : rule1.days.isEmpty = false := by
    cases hd : rule1.days with
    | nil => exact absurd hd h1
    | cons a t => rfl
  constructor
  · rw [P0.periodicDesired_spec]
    generalize timeMins rule0.stop_time = a
    generalize timeMins rule0.start_time = b
    generalize P0.curMinutes dtz rule0 now = m
    refine ⟨?_, ?_, ?_⟩
    · intro heq
      subst heq
      rw [if_neg (lt_irrefl a), if_pos (Or.symm (Nat.lt_or_ge m a))]
    · intro hlt
      rw [if_pos hlt]
      by_cases hin : a ≤ m ∧ m < b
      · rw [if_pos hin]
        exact iff_of_true rfl hin
      · rw [if_neg hin]
        exact iff_of_false (by decide) hin
    · intro hgt
      rw [if_neg (by omega : ¬ a < b)]
      by_cases hin : a ≤ m ∨ m < b
      · rw [if_pos hin]
        exact iff_of_true rfl hin
      · rw [if_neg hin]
        exact iff_of_false (by decide) hin
  · unfold P1.desiredStatus P1.inActiveWindow
    simp only [hne, h2, Bool.false_eq_true, Bool.true_eq_false, if_false]
    generalize timeMins rule1.stop = a
    generalize timeMins rule1.start = b
    generalize clockMinutes clock = m
    refine ⟨?_, ?_, ?_⟩
    · intro heq
      rw [if_pos heq.symm]
      rfl
    · intro hlt
      rw [if_neg (by omega : ¬ b = a), if_neg (by omega : ¬ b < a)]
      by_cases hin : a ≤ m ∧ m < b
      · rw [decide_eq_true hin]
        simp only [Bool.not_true]
        rw [if_neg (by simp : ¬ (false = true))]
        exact iff_of_true rfl hin
      · rw [decide_eq_false hin]
        simp only [Bool.not_false]
        rw [if_pos trivial]
        exact iff_of_false (by decide) hin
    · intro hgt
      rw [if_neg (by omega : ¬ b = a), if_pos (by omega : b < a)]
      by_cases hin : b ≤ m ∧ m < a
      · rw [decide_eq_true hin, if_pos rfl]
        exact iff_of_false (by decide) (by omega)
      · rw [decide_eq_false hin]
        rw [if_neg (by simp : ¬ (false = true))]
        exact iff_of_true rfl (by omega)

/-- Claim C1, counterexample to the claim as stated: for this part_001 rule
`stop_m = start_m` (both 600), yet the desired state computed by
enforceRule is Active, not Paused, because `inActiveWindow` returns true
for any rule whose days list is empty without ever looking at the times. -/
theorem c1_counterexample :
    timeMins c1CexRule.stop = timeMins c1CexRule.start ∧
    P1.desiredStatus c1CexRule c1CexClock = AdStatus.ACTIVE ∧
    P1.desiredStatus c1CexRule c1CexClock ≠ AdStatus.PAUSED := by
  refine ⟨rfl, rfl, ?_⟩
  decide

/-- Witness for `c1_window_formula` at concrete inputs: a crossing window
(stop 22:00 > start 06:00) evaluated at Monday 03:00 is Paused. -/
theorem c1_window_formula_witness :
    timeMins c1WitRule1.start < timeMins c1WitRule1.stop ∧
    (P1.desiredStatus c1WitRule1 c1CexClock = AdStatus.PAUSED ↔
      (timeMins c1WitRule1.stop ≤ clockMinutes c1CexClock ∨
        clockMinutes c1CexClock < timeMins c1WitRule1.start)) :=
  ⟨by decide,
    (c1_window_formula "UTC" c1WitRule0 c1WitInstant c1WitRule1 c1CexClock
      (by decide) (by decide)).2.2.2 (by decide)⟩


/-- Claim C2, amended.  In part_000's `enforce` path, a weekday outside a
non-empty `days_of_week` makes the run return the NoAction sentinel at line
106: no target resolution, no network call, no status mutation, and no
`last_run` update — whatever state the objects have is preserved.  (In
part_001 the same situation instead yields Paused applied to all targets;
see the counterexample.) -/
theorem c2_day_gate_noaction (rule : P0.Rule) (desired : AdStatus)
    (now : Instant) (hostTz : String) (world : P0.InvWorld)
    (_h1 : rule.days_of_week ≠ [])
    (h2 : rule.days_of_week.contains
      ((now.localAt (rule.timezone.getD hostTz)).dowShort) = false) :
    P0.enforceOutcome rule desired now hostTz world =
      ⟨false, 0, [], false⟩ := by
  unfold P0.enforceOutcome
  rw [if_pos h2]

/-- Witness for `c2_day_gate_noaction`: a Monday-only rule enforced on a
Tuesday does nothing. -/
theorem c2_day_gate_noaction_witness :
    c2WitRule.days_of_week ≠ [] ∧
    P0.enforceOutcome c2WitRule AdStatus.PAUSED c2WitInstant "UTC"
      (fun _ _ => []) = ⟨false, 0, [], false⟩ :=
  ⟨by decide,
    c2_day_gate_noaction c2WitRule AdStatus.PAUSED c2WitInstant "UTC"
      (fun _ _ => []) (by decide) (by decide)⟩

/-- Claim C2, counterexample to the claim as stated: part_001's
`enforceRule` on a weekday outside the non-empty days set does not return a
NoAction sentinel — `inActiveWindow` returns false (line 140), so the rule's
targets are actively set to Paused. -/
theorem c2_counterexample :
    c2CexRule.days ≠ [] ∧
    c2CexRule.days.contains (c2CexInstant.localAt "UTC").dayIdx = false ∧
    P1.enforceRule c2CexRule c2CexInstant "UTC" (fun _ _ => []) =
      ⟨AdStatus.PAUSED, ["x"], 0, [("x", AdStatus.PAUSED)]⟩ := by
  refine ⟨by decide, by decide, ?_⟩
  rfl

/-- Claim C3, bug exhibit.  part_001's `enforceRule` derives weekday and
minutes with bare `dayjs(now)` (lines 137-145), i.e. in the process-local
zone, not the rule's configured zone: for the same rule and the same
instant the desired state flips with the host zone (Paused when the host
runs on UTC, Active when the host happens to run on the rule's own zone),
so the evaluation is not a function of the rule's timezone as the claim
states.  part_000's periodic evaluation takes no host-zone input at all. -/
theorem c3_host_timezone_dependence :
    P1.enforceDesired c3Rule c3Instant "UTC" = AdStatus.PAUSED ∧
    P1.enforceDesired c3Rule c3Instant c3Rule.tz = AdStatus.ACTIVE ∧
    P1.enforceDesired c3Rule c3Instant "UTC" ≠
      P1.enforceDesired c3Rule c3Instant c3Rule.tz := by
  refine ⟨rfl, rfl, ?_⟩
  decide

/-- Claim C7, amended.  In part_000, a rule with an empty explicit id list
and a falsy name filter resolves to the empty set with no listing request
(`getTargets` lines 82-84), and `enforce` treats the empty resolution as a
plain no-op, not an error: it returns at line 109 before any status
mutation and before the `last_run` update.  (In part_001 the same selector
instead lists the whole inventory with an empty filter and mutates every
object; see the counterexample.) -/
theorem c7_empty_selector_noop (rule : P0.Rule) (desired : AdStatus)
    (now : Instant) (hostTz : String) (world : P0.InvWorld)
    (h1 : rule.target_ids = [])
    (h2 : jsTruthyStr rule.name_filter = false) :
    P0.getTargets rule world = ([], 0) ∧
    (P0.enforceOutcome rule desired now hostTz world).muts = [] ∧
    (P0.enforceOutcome rule desired now hostTz world).networkCalls = 0 ∧
    (P0.enforceOutcome rule desired now hostTz world).lastRunUpdated = false := by
  have hg : P0.getTargets rule world = ([], 0) := by
    unfold P0.getTargets
    rw [h1]
    simp [h2]
  refine ⟨hg, ?_⟩
  unfold P0.enforceOutcome
  rw [hg]
  dsimp only
  split_ifs with hd he <;> simp_all

/-- Witness for `c7_empty_selector_noop` at concrete inputs. -/
theorem c7_empty_selector_noop_witness :
    P0.getTargets c7WitRule (fun _ _ => [⟨"z", some "zebra"⟩]) = ([], 0) ∧
    (P0.enforceOutcome c7WitRule AdStatus.ACTIVE c2WitInstant "UTC"
      (fun _ _ => [⟨"z", some "zebra"⟩])).muts = [] ∧
    (P0.enforceOutcome c7WitRule AdStatus.ACTIVE c2WitInstant "UTC"
      (fun _ _ => [⟨"z", some "zebra"⟩])).networkCalls = 0 ∧
    (P0.enforceOutcome c7WitRule AdStatus.ACTIVE c2WitInstant "UTC"
      (fun _ _ => [⟨"z", some "zebra"⟩])).lastRunUpdated = false :=
  c7_empty_selector_noop c7WitRule AdStatus.ACTIVE c2WitInstant "UTC"
    (fun _ _ => [⟨"z", some "zebra"⟩]) rfl rfl

/-- Claim C7, counterexample to the claim as stated: in part_001 a rule
carrying neither explicit ids nor a name filter does not resolve to the
empty set without network traffic — `enforceRule` calls `findTargetsByName`
with the empty filter, which fetches the inventory (one page here) and
matches every object, and the run then mutates all of them. -/
theorem c7_counterexample :
    c7CexRule.ids = [] ∧
    c7CexRule.name_contains = "" ∧
    P1.enforceRule c7CexRule c7CexInstant "UTC" c7CexWorld =
      ⟨AdStatus.PAUSED, ["obj1"], 1, [("obj1", AdStatus.PAUSED)]⟩ := by
  refine ⟨rfl, rfl, ?_⟩
  rfl

namespace P0

theorem setStatusLoop_succ_ok (resp : Nat → Option ProviderErr)
    (fuel attempt calls : Nat) (delays : List Nat)
    (h : resp attempt = none) :
    setStatusLoop resp (fuel + 1) attempt calls delays =
      ⟨ApplyOutcome.success, calls + 1, delays⟩ := by
  conv_lhs => rw [setStatusLoop.eq_def]
  dsimp only
  rw [h]

theorem setStatusLoop_succ_retry (resp : Nat → Option ProviderErr)
    (fuel attempt calls : Nat) (delays : List Nat) (e : ProviderErr)
    (h : resp attempt = some e) (ht : attempt < 3 ∧ isTransient e = true) :
    setStatusLoop resp (fuel + 1) attempt calls delays =
      setStatusLoop resp fuel (attempt + 1) (calls + 1)
        (delays ++ [500 * attempt]) := by
  conv_lhs => rw [setStatusLoop.eq_def]
  dsimp only
  rw [h]
  dsimp only
  rw [if_pos ht]

theorem setStatusLoop_succ_throw (resp : Nat → Option ProviderErr)
    (fuel attempt calls : Nat) (delays : List Nat) (e : ProviderErr)
    (h : resp attempt = some e) (ht : ¬ (attempt < 3 ∧ isTransient e = true)) :
    setStatusLoop resp (fuel + 1) attempt calls delays =
      ⟨ApplyOutcome.failure e, calls + 1, delays⟩ := by
  conv_lhs => rw [setStatusLoop.eq_def]
  dsimp only
  rw [h]
  dsimp only
  rw [if_neg ht]

theorem setStatusLoop_calls_le (resp : Nat → Option ProviderErr) :
    ∀ (fuel attempt calls : Nat) (delays : List Nat),
      (setStatusLoop resp fuel attempt calls delays).calls ≤ calls + fuel := by
  intro fuel
  induction fuel with
  | zero =>
      intro attempt calls delays
      simp [setStatusLoop]
  | succ n ih =>
      intro attempt calls delays
      cases h : resp attempt with
      | none =>
          rw [setStatusLoop_succ_ok resp n attempt calls delays h]
          dsimp only
          omega
      | some e =>
          by_cases ht : attempt < 3 ∧ isTransient e = true
          · rw [setStatusLoop_succ_retry resp n attempt calls delays e h ht]
            have h2 := ih (attempt + 1) (calls + 1) (delays ++ [500 * attempt])
            omega
          · rw [setStatusLoop_succ_throw resp n attempt calls delays e h ht]
            dsimp only
            omega

end P0


/-- Claim C4, amended.  part_000's `setStatus` makes at most 3 POST
attempts; an attempt failing with a code in the transient allow-list is
retried after a delay of `500 * attempt` ms; a non-transient failure
surfaces immediately with that payload; exhaustion surfaces the last
observed payload; and two transient failures followed by a success yield
success with exactly 3 calls.  (part_001's `setStatusOnObjects` has no
retry at all: exactly one call per object, recording the failure — see the
counterexample.) -/
theorem c4_retry_policy (resp : Nat → Option ProviderErr) :
    (P0.setStatus resp).calls ≤ 3 ∧
    (∀ e1 e2, resp 1 = some e1 → P0.isTransient e1 = true →
      resp 2 = some e2 → P0.isTransient e2 = true → resp 3 = none →
      P0.setStatus resp = ⟨P0.ApplyOutcome.success, 3, [500, 1000]⟩) ∧
    (∀ e, resp 1 = some e → P0.isTransient e = false →
      P0.setStatus resp = ⟨P0.ApplyOutcome.failure e, 1, []⟩) ∧
    (∀ e1 e2 e3, resp 1 = some e1 → P0.isTransient e1 = true →
      resp 2 = some e2 → P0.isTransient e2 = true → resp 3 = some e3 →
      P0.setStatus resp = ⟨P0.ApplyOutcome.failure e3, 3, [500, 1000]⟩) := by
  refine ⟨?_, ?_, ?_, ?_⟩
  · have := P0.setStatusLoop_calls_le resp 3 1 0 []
    unfold P0.setStatus
    omega
  · intro e1 e2 h1 t1 h2 t2 h3
    show P0.setStatusLoop resp (2 + 1) 1 0 [] = _
    rw [P0.setStatusLoop_succ_retry resp 2 1 0 [] e1 h1 ⟨by omega, t1⟩]
    show P0.setStatusLoop resp (1 + 1) 2 1 [500] = _
    rw [P0.setStatusLoop_succ_retry resp 1 2 1 [500] e2 h2 ⟨by omega, t2⟩]
    show P0.setStatusLoop resp (0 + 1) 3 2 [500, 1000] = _
    rw [P0.setStatusLoop_succ_ok resp 0 3 2 [500, 1000] h3]
  · intro e h1 t1
    show P0.setStatusLoop resp (2 + 1) 1 0 [] = _
    rw [P0.setStatusLoop_succ_throw resp 2 1 0 [] e h1 (by simp [t1])]
  · intro e1 e2 e3 h1 t1 h2 t2 h3
    show P0.setStatusLoop resp (2 + 1) 1 0 [] = _
    rw [P0.setStatusLoop_succ_retry resp 2 1 0 [] e1 h1 ⟨by omega, t1⟩]
    show P0.setStatusLoop resp (1 + 1) 2 1 [500] = _
    rw [P0.setStatusLoop_succ_retry resp 1 2 1 [500] e2 h2 ⟨by omega, t2⟩]
    show P0.setStatusLoop resp (0 + 1) 3 2 [500, 1000] = _
    rw [P0.setStatusLoop_succ_throw resp 0 3 2 [500, 1000] e3 h3
      (by omega : ¬ (3 < 3 ∧ P0.isTransient e3 = true))]

/-- Witness for `c4_retry_policy`: transient, transient, success gives
overall success with exactly 3 calls and growing delays. -/
theorem c4_retry_policy_witness :
    P0.setStatus c4WitResp = ⟨P0.ApplyOutcome.success, 3, [500, 1000]⟩ :=
  (c4_retry_policy c4WitResp).2.1 ⟨some 17, "rate limited"⟩
    ⟨some 17, "rate limited"⟩ rfl rfl rfl rfl rfl

/-- Claim C4, counterexample to the claim as stated: under a provider that
returns a known transient code twice and would succeed on the third
attempt, part_001's status applier (`setStatusOnObjects`) makes exactly one
call for the object and reports failure — not success with 3 calls: it has
no retry. -/
theorem c4_counterexample :
    P0.isTransient ⟨some 4, "throttled"⟩ = true ∧
    c4CexRespond "x" 1 = some ⟨some 4, "throttled"⟩ ∧
    c4CexRespond "x" 2 = some ⟨some 4, "throttled"⟩ ∧
    c4CexRespond "x" 3 = none ∧
    P1.setStatusOnObjects ["x"] c4CexRespond =
      ([⟨"x", false, some ⟨some 4, "throttled"⟩⟩], 1) := by
  refine ⟨by decide, rfl, rfl, rfl, rfl⟩

theorem P1.findLoop_spec (f : String) :
    ∀ (fuel : Nat) (pages : List (List InvObj)),
      P1.findLoop f fuel pages =
        (((pages.take fuel).flatten.filter fun it =>
            f == "" || lowerContains (it.name.getD "") f).map InvObj.id,
          min fuel pages.length) := by
  intro fuel
  induction fuel with
  | zero =>
      intro pages
      cases pages <;> simp [P1.findLoop]
  | succ n ih =>
      intro pages
      cases pages with
      | nil => simp [P1.findLoop]
      | cons p rest =>
          unfold P1.findLoop
          rw [ih rest]
          simp [List.filter_append, Nat.succ_min_succ]

/-- Claim C8, amended.  part_001's `findTargetsByName` queries the listing
endpoint for the rule's level under its account, walks pagination through
at most 10 pages, and returns exactly the ids of the listed objects whose
name contains the filter case-insensitively, together with the number of
pages fetched (`min 10 pages`).  (part_000's `fetchByNameFilter` instead
reads a single page and matches the name filter case-sensitively; see the
counterexample.) -/
theorem c8_name_filter_resolution (world : P1.InvWorld)
    (accountId level f : String) (hf : f ≠ "") :
    P1.findTargetsByName world accountId level f =
      ((((world accountId (nodeOfLevel level)).take 10).flatten.filter
          fun it => lowerContains (it.name.getD "") f).map InvObj.id,
        min 10 (world accountId (nodeOfLevel level)).length) := by
  unfold P1.findTargetsByName
  rw [P1.findLoop_spec]
  have hb : (f == "") = false := by
    simpa using hf
  rw [List.filter_congr (fun it _ => by rw [hb, Bool.false_or])]

/-- Witness for `c8_name_filter_resolution` at concrete inputs. -/
theorem c8_name_filter_resolution_witness :
    P1.findTargetsByName c8WitWorld "a1" "campaign" "alpha" =
      ((((c8WitWorld "a1" (nodeOfLevel "campaign")).take 10).flatten.filter
          fun it => lowerContains (it.name.getD "") "alpha").map InvObj.id,
        min 10 (c8WitWorld "a1" (nodeOfLevel "campaign")).length) :=
  c8_name_filter_resolution c8WitWorld "a1" "campaign" "alpha" (by decide)

/-- Claim C8, counterexample to the claim as stated: the object named
"Summer Sale" contains the filter "summer" case-insensitively, so the claim
requires its id in the resolution, but part_000's `fetchByNameFilter` uses
the case-sensitive `String.prototype.includes` and returns the empty set. -/
theorem c8_counterexample :
    lowerContains "Summer Sale" "summer" = true ∧
    strContains "Summer Sale" "summer" = false ∧
    P0.fetchByNameFilter c8CexRule c8CexWorld = [] ∧
    P0.getTargets c8CexRule c8CexWorld = ([], 1) := by
  refine ⟨by decide, by decide, rfl, rfl⟩


/-- Claim C9, amended.  part_001's periodic reconciliation trigger uses the
configured interval clamped to at least 1 and at most 60 minutes (with 5 as
the falsy default); part_000's uses `max 5 (interval or 30)` — a lower
clamp of 5 and no upper bound at all (see the counterexample). -/
theorem c9_interval_clamp :
    (∀ v, 1 ≤ P1.clampEvery v ∧ P1.clampEvery v ≤ 60) ∧
    (∀ v, 1 ≤ v → v ≤ 60 → P1.clampEvery v = v) ∧
    (∀ v, 60 ≤ v → P1.clampEvery v = 60) ∧
    (∀ v, 5 ≤ P0.everyXMins v) ∧
    (∀ v, 5 ≤ v → P0.everyXMins v = v) := by
  refine ⟨?_, ?_, ?_, ?_, ?_⟩ <;>
    intro v <;>
    simp only [P1.clampEvery, P0.everyXMins] <;>
    split_ifs <;>
    omega

/-- Witness for `c9_interval_clamp`: a 7-minute interval is kept as is by
part_001 and a 7-minute interval is kept by part_000 as well. -/
theorem c9_interval_clamp_witness :
    P1.clampEvery 7 = 7 ∧ P0.everyXMins 7 = 7 :=
  ⟨(c9_interval_clamp).2.1 7 (by decide) (by decide),
    (c9_interval_clamp).2.2.2.2 7 (by decide)⟩

/-- Claim C9, counterexample to the claim as stated: a configured interval
of 120 minutes clamped to at most 60 would be 60, but part_000 installs the
periodic trigger with divisor 120 — there is no upper clamp in part_000. -/
theorem c9_counterexample :
    P0.everyXMins 120 = 120 ∧
    max 1 (min 60 120) = 60 ∧
    P0.everyXMins 120 ≠ max 1 (min 60 120) := by
  refine ⟨rfl, rfl, by decide⟩

namespace P0

theorem unscheduleRule_pointwise (jobs : JobsMap) (id k : Nat) :
    unscheduleRule jobs id k = if k = id then none else jobs k := by
  unfold unscheduleRule
  cases h : jobs id with
  | none =>
      dsimp only
      split_ifs with hk
      · rw [hk]
        exact h
      · rfl
  | some ts => rfl

theorem enabledLookup_nil (k : Nat) : enabledLookup [] k = none := rfl

theorem enabledLookup_cons (a : Rule) (t : List Rule) (k : Nat) :
    enabledLookup (a :: t) k =
      if (a.id == k && a.enabled) = true then some a else enabledLookup t k := by
  unfold enabledLookup
  rw [List.find?_cons]
  by_cases hp : (a.id == k && a.enabled) = true
  · rw [hp]
    rfl
  · have hp2 : (a.id == k && a.enabled) = false := by
      cases h2 : (a.id == k && a.enabled) with
      | false => rfl
      | true => exact absurd h2 hp
    rw [hp2]
    rfl

theorem enabledLookup_append (l1 l2 : List Rule) (k : Nat) :
    enabledLookup (l1 ++ l2) k =
      (enabledLookup l1 k).or (enabledLookup l2 k) := by
  unfold enabledLookup
  rw [List.find?_append]

theorem enabledLookup_none_of_lt (rules : List Rule) (n : Nat)
    (hb : ∀ r ∈ rules, r.id < n) :
    enabledLookup rules n = none := by
  unfold enabledLookup
  rw [List.find?_eq_none]
  intro r hr hcontra
  rw [Bool.and_eq_true, beq_iff_eq] at hcontra
  obtain ⟨h2, _⟩ := hcontra
  have := hb r hr
  omega

theorem find?_filter_of_imp {α : Type} (l : List α) (p q : α → Bool)
    (himp : ∀ a, p a = true → q a = true) :
    (l.filter q).find? p = l.find? p := by
  induction l with
  | nil => rfl
  | cons a t ih =>
      by_cases hq : q a = true
      · rw [List.filter_cons_of_pos hq, List.find?_cons, List.find?_cons]
        cases hp : p a with
        | true => rfl
        | false => exact ih
      · have hp : p a = false := by
          cases h2 : p a with
          | false => rfl
          | true => exact absurd (himp a h2) hq
        rw [List.filter_cons_of_neg (by simp [hq]), List.find?_cons, hp]
        exact ih

theorem enabledLookup_map_replace (rules : List Rule) (id k : Nat)
    (merged : Rule) (hm : merged.id = id) (hk : k ≠ id) :
    enabledLookup (rules.map (fun r => if r.id == id then merged else r)) k =
      enabledLookup rules k := by
  induction rules with
  | nil => rfl
  | cons a t ih =>
      rw [List.map_cons, enabledLookup_cons, enabledLookup_cons]
      by_cases ha : a.id = id
      · have hsel : (if a.id == id then merged else a) = merged := by
          simp [ha]
        rw [hsel]
        have h1 : (merged.id == k && merged.enabled) = false := by
          have hne : (merged.id == k) = false := by
            rw [hm]
            exact beq_eq_false_iff_ne.mpr (fun he => hk he.symm)
          rw [hne, Bool.false_and]
        have h2 : (a.id == k && a.enabled) = false := by
          have hne : (a.id == k) = false := by
            rw [ha]
            exact beq_eq_false_iff_ne.mpr (fun he => hk he.symm)
          rw [hne, Bool.false_and]
        rw [h1, h2]
        exact ih
      · have hsel : (if a.id == id then merged else a) = a := by
          simp [ha]
        rw [hsel, ih]

theorem enabledLookup_map_replace_self (rules : List Rule) (id : Nat)
    (merged : Rule) (hm : merged.id = id) (hen : merged.enabled = true)
    (row : Rule)
    (hfind : rules.find? (fun r => r.id == id) = some row) :
    enabledLookup (rules.map (fun r => if r.id == id then merged else r)) id =
      some merged := by
  induction rules with
  | nil => exact absurd hfind (by simp)
  | cons a t ih =>
      rw [List.map_cons, enabledLookup_cons]
      by_cases ha : a.id = id
      · have hsel : (if a.id == id then merged else a) = merged := by
          simp [ha]
        rw [hsel]
        have hcond : (merged.id == id && merged.enabled) = true := by
          rw [hm, hen, Bool.and_true]
          exact beq_self_eq_true id
        rw [hcond]
        rfl
      · have hsel : (if a.id == id then merged else a) = a := by
          simp [ha]
        rw [hsel]
        have hne : (a.id == id) = false := beq_eq_false_iff_ne.mpr ha
        have hcond : (a.id == id && a.enabled) = false := by
          rw [hne, Bool.false_and]
        rw [hcond]
        have hfind2 : t.find? (fun r => r.id == id) = some row := by
          rw [List.find?_cons, hne] at hfind
          exact hfind
        exact ih hfind2

theorem enabledLookup_map_replace_self_none (rules : List Rule) (id : Nat)
    (merged : Rule) (hen : merged.enabled = false) :
    enabledLookup (rules.map (fun r => if r.id == id then merged else r)) id =
      none := by
  unfold enabledLookup
  rw [List.find?_eq_none]
  intro x hx
  rcases List.mem_map.mp hx with ⟨r, _, hr⟩
  by_cases ha : r.id = id
  · have hx2 : x = merged := by
      rw [← hr]
      simp [ha]
    rw [hx2]
    simp [hen]
  · have hx2 : x = r := by
      rw [← hr]
      simp [ha]
    rw [hx2]
    simp [ha]

theorem enabledLookup_filter_out (rules : List Rule) (id : Nat) :
    enabledLookup (rules.filter (fun r => !(r.id == id))) id = none := by
  unfold enabledLookup
  rw [List.find?_eq_none]
  intro x hx hcontra
  have hq := List.of_mem_filter hx
  rw [Bool.not_eq_true', beq_eq_false_iff_ne] at hq
  rw [Bool.and_eq_true, beq_iff_eq] at hcontra
  exact hq hcontra.1

theorem enabledLookup_filter_keep (rules : List Rule) (id k : Nat)
    (hk : k ≠ id) :
    enabledLookup (rules.filter (fun r => !(r.id == id))) k =
      enabledLookup rules k := by
  unfold enabledLookup
  apply find?_filter_of_imp
  intro a ha
  rw [Bool.and_eq_true, beq_iff_eq] at ha
  rw [Bool.not_eq_true', beq_eq_false_iff_ne, ha.1]
  exact hk

theorem regInv_step (dtz : String) (s : AppState) (op : Op)
    (h : RegInv dtz s) : RegInv dtz (step dtz s op) := by
  obtain ⟨hb, hj⟩ := h
  cases op with
  | insert f =>
      simp only [step]
      set row : Rule := { f with id := s.nextId } with hrow
      have hrowid : row.id = s.nextId := rfl
      have hnone : s.jobs s.nextId = none := by
        rw [hj, enabledLookup_none_of_lt s.rules s.nextId hb]
        rfl
      have hu : unscheduleRule s.jobs s.nextId = s.jobs := by
        unfold unscheduleRule
        rw [hnone]
      constructor
      · intro r hr
        show r.id < s.nextId + 1
        rcases List.mem_append.mp hr with hl | hl
        · have := hb r hl
          omega
        · rw [List.mem_singleton.mp hl, hrowid]
          omega
      · intro k
        show scheduleRule dtz s.jobs row k =
          (enabledLookup (s.rules ++ [row]) k).map (mkTriggerSet dtz)
        rw [enabledLookup_append]
        unfold scheduleRule
        dsimp only
        rw [hu]
        by_cases hen : f.enabled = false
        · rw [if_pos hen]
          have hsing : enabledLookup [row] k = none := by
            rw [enabledLookup_cons, enabledLookup_nil]
            show (if (s.nextId == k && f.enabled) = true then some row
              else none) = none
            rw [hen, Bool.and_false]
            rfl
          rw [hsing, Option.or_none]
          exact hj k
        · have hen2 : f.enabled = true := by
            cases h2 : f.enabled with
            | false => exact absurd h2 hen
            | true => rfl
          rw [if_neg hen]
          by_cases hk : k = s.nextId
          · rw [if_pos hk, hk, enabledLookup_none_of_lt s.rules s.nextId hb]
            have hsing : enabledLookup [row] s.nextId = some row := by
              rw [enabledLookup_cons]
              show (if (s.nextId == s.nextId && f.enabled) = true then some row
                else enabledLookup [] s.nextId) = some row
              rw [hen2, Bool.and_true, beq_self_eq_true]
              rfl
            rw [hsing, Option.none_or]
            rfl
          · rw [if_neg hk]
            have hsing : enabledLookup [row] k = none := by
              rw [enabledLookup_cons, enabledLookup_nil]
              show (if (s.nextId == k && f.enabled) = true then some row
                else none) = none
              have hne : (s.nextId == k) = false :=
                beq_eq_false_iff_ne.mpr (fun he => hk he.symm)
              rw [hne, Bool.false_and]
              rfl
            rw [hsing, Option.or_none]
            exact hj k
  | patch id upd =>
      cases hfind : s.rules.find? (fun r => r.id == id) with
      | none =>
          simp only [step, hfind]
          exact ⟨hb, hj⟩
      | some row =>
          have hrow_mem : row ∈ s.rules := List.mem_of_find?_eq_some hfind
          simp only [step, hfind]
          set merged : Rule := { upd row with id := id } with hmerged
          have hmid : merged.id = id := rfl
          constructor
          · intro r hr
            show r.id < s.nextId
            rcases List.mem_map.mp hr with ⟨r0, hr0, hrr⟩
            by_cases ha : r0.id = id
            · have hre : r = merged := by
                rw [← hrr]
                simp [ha]
              rw [hre, hmid]
              have hrid : row.id = id := by
                simpa using List.find?_some hfind
              have := hb row hrow_mem
              omega
            · have hre : r = r0 := by
                rw [← hrr]
                simp [ha]
              rw [hre]
              exact hb r0 hr0
          · intro k
            show scheduleRule dtz s.jobs merged k =
              (enabledLookup (s.rules.map
                (fun r => if r.id == id then merged else r)) k).map
                (mkTriggerSet dtz)
            unfold scheduleRule
            dsimp only
            by_cases hen : (upd row).enabled = false
            · rw [if_pos hen, unscheduleRule_pointwise]
              by_cases hk : k = id
              · rw [if_pos hk, hk,
                  enabledLookup_map_replace_self_none s.rules id merged hen]
                rfl
              · rw [if_neg hk,
                  enabledLookup_map_replace s.rules id k merged hmid hk]
                exact hj k
            · have hen2 : (upd row).enabled = true := by
                cases h2 : (upd row).enabled with
                | false => exact absurd h2 hen
                | true => rfl
              rw [if_neg hen]
              by_cases hk : k = id
              · rw [if_pos hk, hk,
                  enabledLookup_map_replace_self s.rules id merged hmid hen2
                    row hfind]
                rfl
              · rw [if_neg hk, unscheduleRule_pointwise, if_neg hk,
                  enabledLookup_map_replace s.rules id k merged hmid hk]
                exact hj k
  | del id =>
      simp only [step]
      constructor
      · intro r hr
        show r.id < s.nextId
        exact hb r (List.mem_of_mem_filter hr)
      · intro k
        show unscheduleRule s.jobs id k =
          (enabledLookup (s.rules.filter (fun r => !(r.id == id))) k).map
            (mkTriggerSet dtz)
        rw [unscheduleRule_pointwise]
        by_cases hk : k = id
        · rw [if_pos hk, hk, enabledLookup_filter_out]
          rfl
        · rw [if_neg hk, enabledLookup_filter_keep s.rules id k hk]
          exact hj k

theorem regInv_run (dtz : String) (ops : List Op) :
    RegInv dtz (run dtz ops) := by
  have hinit : RegInv dtz initState := by
    constructor
    · intro r hr
      exact absurd hr (List.not_mem_nil r)
    · intro k
      rfl
  unfold run
  generalize initState = s0 at hinit ⊢
  induction ops generalizing s0 with
  | nil => exact hinit
  | cons op rest ih =>
      rw [List.foldl_cons]
      exact ih (step dtz s0 op) (regInv_step dtz s0 op hinit)

end P0


/-- Claim C5, confirmed on part_000's registry.  After replaying any
sequence of insert/update(-or-disable)/delete mutations from a fresh state,
the jobs map holds an entry for a rule id exactly when the rules table
holds an enabled rule with that id, and that entry carries exactly the
triggers implied by the rule's newest configuration; since the registry is
a Map keyed by rule id there is at most one trigger set per id, and (second
conjunct) `scheduleRule` is pointwise the installation applied after the
synchronous cancellation of the whole old set.  (part_001 has no `enabled`
flag and no update route; its `scheduleRule`/`unschedule` have the same
cancel-first shape, and a trigger set there exists iff the rule exists.) -/
theorem c5_trigger_registry_invariant (dtz : String) (ops : List P0.Op)
    (id : Nat) :
    (P0.run dtz ops).jobs id =
      (P0.enabledLookup (P0.run dtz ops).rules id).map (P0.mkTriggerSet dtz) ∧
    (∀ (jobs : P0.JobsMap) (r : P0.Rule) (k : Nat),
      P0.scheduleRule dtz jobs r k =
        if r.enabled = false then P0.unscheduleRule jobs r.id k
        else if k = r.id then some (P0.mkTriggerSet dtz r)
        else P0.unscheduleRule jobs r.id k) := by
  constructor
  · exact (P0.regInv_run dtz ops).2 id
  · intro jobs r k
    unfold P0.scheduleRule
    by_cases hen : r.enabled = false
    · rw [if_pos hen, if_pos hen]
    · rw [if_neg hen, if_neg hen]


/-- Claim C10, confirmed.  Unscheduling a rule id with no registered
trigger set returns with the registry unchanged, in both servers (part_000
`unscheduleRule` returns at line 63, part_001 `unschedule` skips the
cancellation block), and unschedule is idempotent for every id. -/
theorem c10_unschedule_noop_idempotent (jobs : P0.JobsMap) (id : Nat)
    (h : jobs id = none) (m : P1.SchedulerMap) (sid : String)
    (h2 : m sid = none) :
    P0.unscheduleRule jobs id = jobs ∧
    (∀ (j : P0.JobsMap) (k : Nat),
      P0.unscheduleRule (P0.unscheduleRule j k) k = P0.unscheduleRule j k) ∧
    P1.unschedule m sid = m ∧
    (∀ (j : P1.SchedulerMap) (k : String),
      P1.unschedule (P1.unschedule j k) k = P1.unschedule j k) := by
  refine ⟨?_, ?_, ?_, ?_⟩
  · unfold P0.unscheduleRule
    rw [h]
  · intro j k
    cases hj : j k with
    | none =>
        have he : P0.unscheduleRule j k = j := by
          unfold P0.unscheduleRule
          rw [hj]
        rw [he, he]
    | some ts =>
        have hval : P0.unscheduleRule j k k = none := by
          rw [P0.unscheduleRule_pointwise, if_pos rfl]
        conv_lhs => rw [P0.unscheduleRule.eq_def]
        rw [hval]
  · unfold P1.unschedule
    rw [h2]
  · intro j k
    cases hj : j k with
    | none =>
        have he : P1.unschedule j k = j := by
          unfold P1.unschedule
          rw [hj]
        rw [he, he]
    | some ts =>
        have hval : P1.unschedule j k k = none := by
          unfold P1.unschedule
          rw [hj]
          dsimp only
          rw [if_pos rfl]
        conv_lhs => rw [P1.unschedule.eq_def]
        rw [hval]

/-- Witness for `c10_unschedule_noop_idempotent` at concrete inputs. -/
theorem c10_unschedule_noop_idempotent_witness :
    P0.unscheduleRule (fun _ => none) 7 = (fun _ => none) ∧
    P1.unschedule (fun _ => none) "r9" = (fun _ => none) :=
  ⟨(c10_unschedule_noop_idempotent (fun _ => none) 7 rfl
      (fun _ => none) "r9" rfl).1,
    (c10_unschedule_noop_idempotent (fun _ => none) 7 rfl
      (fun _ => none) "r9" rfl).2.2.1⟩

/-- Claim C6, bug exhibit.  Two enforcement invocations for the same rule
(with the same single target "a") admit a reachable interleaving in which
both invocations' `setStatus("a")` calls are simultaneously in flight: the
code serializes nothing, so the cited re-entrancy rule is not implemented
by either server. -/
theorem c6_overlapping_applies_reachable :
    ∃ tr, Interleaving (taggedSteps 1 ["a"]) (taggedSteps 2 ["a"]) tr ∧
      OverlappingApply tr := by
  refine ⟨[(1, P0.EnfStep.dayGate), (1, P0.EnfStep.resolveTargets),
    (1, P0.EnfStep.applyStart "a"), (2, P0.EnfStep.dayGate),
    (2, P0.EnfStep.resolveTargets), (2, P0.EnfStep.applyStart "a"),
    (2, P0.EnfStep.applyEnd "a"), (2, P0.EnfStep.updateLastRun),
    (1, P0.EnfStep.applyEnd "a"), (1, P0.EnfStep.updateLastRun)], ?_, ?_⟩
  · have h1 : taggedSteps 1 ["a"] = [(1, P0.EnfStep.dayGate),
        (1, P0.EnfStep.resolveTargets), (1, P0.EnfStep.applyStart "a"),
        (1, P0.EnfStep.applyEnd "a"), (1, P0.EnfStep.updateLastRun)] := rfl
    have h2 : taggedSteps 2 ["a"] = [(2, P0.EnfStep.dayGate),
        (2, P0.EnfStep.resolveTargets), (2, P0.EnfStep.applyStart "a"),
        (2, P0.EnfStep.applyEnd "a"), (2, P0.EnfStep.updateLastRun)] := rfl
    rw [h1, h2]
    exact Interleaving.left (Interleaving.left (Interleaving.left
      (Interleaving.right (Interleaving.right (Interleaving.right
      (Interleaving.right (Interleaving.right (Interleaving.left
      (Interleaving.left Interleaving.nil)))))))))
  · refine ⟨1, 2, "a", [(1, P0.EnfStep.dayGate), (1, P0.EnfStep.resolveTargets)],
      [(2, P0.EnfStep.dayGate), (2, P0.EnfStep.resolveTargets)],
      [(2, P0.EnfStep.applyEnd "a"), (2, P0.EnfStep.updateLastRun),
        (1, P0.EnfStep.applyEnd "a"), (1, P0.EnfStep.updateLastRun)],
      ?_, ?_, ?_⟩
    · decide
    · rfl
    · decide
